import Mathlib

/-!
Shallow embedding of the RAG (retrieval-augmented generation) module of the
google-drive-clone repository, file `src/lib/ai/rag.ts`, together with proofs
about the claims of its specification.

External collaborators (the Appwrite blob store, the Appwrite document store,
the Gemini embedding model and the pdf parser) appear as oracles packed into
environment records; their fallibility is modelled with `Except`.

Text is modelled as `List Char` (a JS string); file buffers as `List Nat`
(raw bytes).
-/

namespace Rag

/-- Errors that the external calls of `rag.ts` can raise (thrown JS errors). -/
inductive RagError where
  /-- `storage.getFileDownload` rejected. -/
  | downloadErr : RagError
  /-- `pdf-parse` threw while parsing the buffer. -/
  | parseErr : RagError
  /-- `extractTextFromFile` threw `Unsupported file type for indexing: <mimeType>`. -/
  | unsupported (mimeType : List Char) : RagError
  /-- `embeddings.embedQuery` rejected. -/
  | embedErr : RagError
  /-- `databases.createDocument` rejected. -/
  | writeErr : RagError
  /-- `databases.listDocuments` rejected. -/
  | queryErr : RagError
deriving DecidableEq, Repr

/-- A document of the `file_embeddings` collection: the record written by
`indexDocument` (rag.ts lines 73-83) with attributes `fileId`, `content`,
`vector`. -/
structure ChunkRecord where
  fileId : List Char
  content : List Char
  vector : List Int
deriving DecidableEq, Repr

/-- The vector store: the list of documents of the `file_embeddings`
collection, in insertion order. -/
abbrev Store := List ChunkRecord

/-- One step of the chunking regex `/[\s\S]{1,1000}/g` (rag.ts line 58):
greedily take 1000 characters, recurse on the rest.  `fuel` is an upper bound
on the number of remaining characters, making the recursion structural. -/
def chunksGo : Nat → List Char → List (List Char)
  | 0, _ => []
  | _ + 1, [] => []
  | fuel + 1, c :: cs => List.take 1000 (c :: cs) :: chunksGo fuel (List.drop 1000 (c :: cs))

/-- `text.match(/[\s\S]{1,1000}/g) || []` (rag.ts line 58): the text cut into
consecutive chunks of exactly 1000 characters, the last one 1 to 1000
characters; the empty text gives no chunk (`match` returns `null`). -/
def chunksOf1000 (s : List Char) : List (List Char) :=
  chunksGo s.length s

theorem chunksGo_congr (f g : Nat) (s : List Char) (hf : s.length ≤ f) (hg : s.length ≤ g) :
    chunksGo f s = chunksGo g s := by
  induction f using Nat.strong_induction_on generalizing g s with
  | _ f ih =>
    match f, g, s with
    | 0, g, [] => cases g <;> simp [chunksGo]
    | _ + 1, 0, [] => simp [chunksGo]
    | _ + 1, _ + 1, [] => simp [chunksGo]
    | f + 1, g + 1, c :: cs =>
      simp only [chunksGo]
      have hlen : (List.drop 1000 (c :: cs)).length ≤ f := by
        simp only [List.length_drop]
        omega
      have hleng : (List.drop 1000 (c :: cs)).length ≤ g := by
        simp only [List.length_drop]
        omega
      rw [ih f (Nat.lt_succ_self f) g (List.drop 1000 (c :: cs)) hlen hleng]

/-- The defining step of the chunker: a non-empty text yields its first 1000
characters as first chunk, followed by the chunks of the rest. -/
theorem chunksOf1000_cons (c : Char) (cs : List Char) :
    chunksOf1000 (c :: cs) = List.take 1000 (c :: cs) :: chunksOf1000 (List.drop 1000 (c :: cs)) := by
  simp only [chunksOf1000, List.length_cons, chunksGo]
  refine congrArg _ (chunksGo_congr _ _ _ ?_ le_rfl)
  simp [List.length_drop]

theorem chunksOf1000_nil : chunksOf1000 [] = [] := rfl

/-- Splitting a text of at most 1000 characters yields that text as the single
chunk. -/
theorem chunksOf1000_short (s : List Char) (h0 : s ≠ []) (h : s.length ≤ 1000) :
    chunksOf1000 s = [s] := by
  match s with
  | c :: cs =>
    rw [chunksOf1000_cons]
    rw [List.take_of_length_le (by simpa using h), List.drop_of_length_le (by simpa using h)]
    rfl

/-- Re-concatenating the chunks restores the original text: the chunker
partitions the text into consecutive disjoint segments. -/
theorem chunksOf1000_join (s : List Char) : (chunksOf1000 s).flatten = s := by
  generalize hn : s.length = n
  induction n using Nat.strong_induction_on generalizing s with
  | _ n ih =>
    match s with
    | [] => rfl
    | c :: cs =>
      rw [chunksOf1000_cons]
      simp only [List.flatten_cons]
      rw [ih ((c :: cs).drop 1000).length (by subst hn; simp [List.length_drop]; omega) _ rfl]
      exact List.take_append_drop 1000 (c :: cs)

/-- Every chunk the chunker produces is non-empty and at most 1000 characters
long. -/
theorem chunksOf1000_length_le (s : List Char) (c : List Char) (hc : c ∈ chunksOf1000 s) :
    c ≠ [] ∧ c.length ≤ 1000 := by
  generalize hn : s.length = n
  induction n using Nat.strong_induction_on generalizing s with
  | _ n ih =>
    match s with
    | [] => simp [chunksOf1000_nil] at hc
    | x :: xs =>
      rw [chunksOf1000_cons] at hc
      rcases List.mem_cons.mp hc with h | h
      · subst h
        refine ⟨?_, by simp⟩
        simp [List.take_eq_nil_iff]
      · exact ih ((x :: xs).drop 1000).length
          (by subst hn; simp [List.length_drop]; omega) _ h rfl

/-! ## The search tool (rag.ts lines 96-159)

`searchFileContentTool` takes a single argument, `query`.  After creating the
admin client it returns early when the vector collection environment variable
is unset; otherwise it embeds the query (the resulting vector is unused),
issues one `listDocuments` call with the filter `Query.contains("content",
query)` and joins the contents of the returned documents.  `Query.contains`
on a string attribute is substring matching, modelled with `List.IsInfix`. -/

/-- Environment of one invocation of the search tool: the vector-collection
environment variable and the outcomes of the two external calls. -/
structure SearchEnv where
  /-- `process.env.NEXT_PUBLIC_APPWRITE_VECTOR_COLLECTION`. -/
  vectorCollection : Option (List Char)
  /-- Outcome of `embeddings.embedQuery(query)` (rag.ts line 106). -/
  embedQueryResult : Except RagError (List Int)
  /-- Whether the `databases.listDocuments` call (rag.ts line 132) rejects. -/
  listDocsFails : Bool

/-- "Vector search not configured." (rag.ts line 101). -/
def notConfiguredMsg : List Char := "Vector search not configured.".toList

/-- "Failed to search document content." (rag.ts line 149). -/
def searchFailedMsg : List Char := "Failed to search document content.".toList

/-- "No relevant content found in documents." (rag.ts line 145). -/
def noRelevantMsg : List Char := "No relevant content found in documents.".toList

/-- The separator joining chunk contents (rag.ts line 143). -/
def chunkSep : List Char := "\n---\n".toList

/-- The documents returned by `listDocuments` under the filter
`Query.contains("content", query)`: every record of the collection whose
content has the query as a substring, in store order.  No owner filter is
applied. -/
def matchingDocs (store : Store) (query : List Char) : List ChunkRecord :=
  store.filter (fun d => decide (query <:+: d.content))

/-- Result of the search tool: the returned string together with the number of
queries issued to the document store. -/
structure SearchOutcome where
  result : List Char
  storeQueries : Nat
deriving DecidableEq, Repr

/-- The callback of `searchFileContentTool` (rag.ts lines 97-151).  The final
string is `relevantContent || "No relevant content found in documents."`,
where `relevantContent` joins the matched contents with `"\n---\n"`; the
`catch` turns any error from embedding or the store query into
`"Failed to search document content."`. -/
def searchFileContent (env : SearchEnv) (store : Store) (query : List Char) : SearchOutcome :=
  if env.vectorCollection.isNone then ⟨notConfiguredMsg, 0⟩
  else
    match env.embedQueryResult with
    | .error _ => ⟨searchFailedMsg, 0⟩
    | .ok _ =>
      if env.listDocsFails then ⟨searchFailedMsg, 1⟩
      else
        let relevantContent := chunkSep.intercalate ((matchingDocs store query).map ChunkRecord.content)
        ⟨if relevantContent = [] then noRelevantMsg else relevantContent, 1⟩

/-- The sequence of contents the search returns before joining them into one
string: `results.documents.map(d => d.content)` (rag.ts line 143); empty when
the tool exits early or an external call fails. -/
def searchReturnedContents (env : SearchEnv) (store : Store) (query : List Char) : List (List Char) :=
  if env.vectorCollection.isNone then []
  else
    match env.embedQueryResult with
    | .error _ => []
    | .ok _ =>
      if env.listDocsFails then []
      else (matchingDocs store query).map ChunkRecord.content

/-! ## Indexing (rag.ts lines 21-91) -/

/-- Environment of one invocation of `indexDocument`: the vector-collection
environment variable and the outcomes of the external calls. -/
structure IndexEnv where
  /-- `process.env.NEXT_PUBLIC_APPWRITE_VECTOR_COLLECTION`. -/
  vectorCollection : Option (List Char)
  /-- Outcome of `storage.getFileDownload(bucketId, bucketFileId)` (rag.ts
  line 49), as a function of the bucket file id. -/
  downloadResult : List Char → Except RagError (List Nat)
  /-- Outcome of `parse(fileBuffer)` followed by `.text` (rag.ts lines 23-24). -/
  pdfParse : List Nat → Except RagError (List Char)
  /-- `fileBuffer.toString("utf-8")` (rag.ts line 29), total. -/
  utf8Decode : List Nat → List Char
  /-- Outcome of `embeddings.embedQuery(chunk)` (rag.ts line 64), per chunk text. -/
  embedChunk : List Char → Except RagError (List Int)
  /-- Whether `databases.createDocument` (rag.ts line 73) succeeds for a chunk text. -/
  writeOk : List Char → Bool

/-- `extractTextFromFile` (rag.ts lines 21-33): pdf-parse for
`application/pdf`, direct utf-8 decoding for `text/*` media types, and a
thrown `Unsupported file type` error for everything else. -/
def extractTextFromFile (env : IndexEnv) (fileBuffer : List Nat) (mimeType : List Char) :
    Except RagError (List Char) :=
  if mimeType = "application/pdf".toList then env.pdfParse fileBuffer
  else if "text/".toList <+: mimeType then .ok (env.utf8Decode fileBuffer)
  else .error (.unsupported mimeType)

/-- The per-chunk loop of `indexDocument` (rag.ts lines 62-84), threading the
store and the count of embedding calls.  Inside the loop the chunk is embedded
first; only then is the vector-collection variable checked, returning from the
whole function (skipping all storage) when it is unset; a failed embedding or
write propagates its error out of the loop. -/
def indexChunks (env : IndexEnv) (fileId : List Char) :
    List (List Char) → Store → Nat → Store × Nat × Except RagError Unit
  | [], store, n => (store, n, .ok ())
  | chunk :: rest, store, n =>
    match env.embedChunk chunk with
    | .error e => (store, n + 1, .error e)
    | .ok vector =>
      match env.vectorCollection with
      | none => (store, n + 1, .ok ())
      | some _ =>
        if env.writeOk chunk then
          indexChunks env fileId rest (store ++ [⟨fileId, chunk, vector⟩]) (n + 1)
        else
          (store, n + 1, .error .writeErr)

/-- The body of the `try` block of `indexDocument` (rag.ts lines 46-86):
download, extract, chunk, then the per-chunk loop.  The `Except` component is
the error reaching the surrounding `catch`. -/
def indexDocumentBody (env : IndexEnv) (fileId bucketFileId mimeType : List Char)
    (store : Store) : Store × Nat × Except RagError Unit :=
  match env.downloadResult bucketFileId with
  | .error e => (store, 0, .error e)
  | .ok fileBuffer =>
    match extractTextFromFile env fileBuffer mimeType with
    | .error e => (store, 0, .error e)
    | .ok text =>
      indexChunks env fileId (chunksOf1000 text) store 0

/-- Result of `indexDocument`: the final store, the number of embedding calls
made, and the exception escaping to the caller, if any. -/
structure IndexOutcome where
  store : Store
  embedCalls : Nat
  raised : Option RagError
deriving DecidableEq, Repr

/-- `indexDocument` (rag.ts lines 42-91): the body wrapped in `try/catch` —
an error is logged and swallowed (rag.ts lines 87-90), so nothing is rethrown,
while the store writes made before the error persist. -/
def indexDocument (env : IndexEnv) (fileId bucketFileId mimeType : List Char)
    (store : Store) : IndexOutcome :=
  match indexDocumentBody env fileId bucketFileId mimeType store with
  | (store', n, .ok ()) => ⟨store', n, none⟩
  | (store', n, .error _) => ⟨store', n, none⟩

/-! ## Helper lemmas -/

theorem chunksOf1000_step (s : List Char) (h : s ≠ []) :
    chunksOf1000 s = s.take 1000 :: chunksOf1000 (s.drop 1000) := by
  cases s with
  | nil => exact absurd rfl h
  | cons c cs => exact chunksOf1000_cons c cs

/-- Chunk count of a replicated text: `1000*k + r` characters with
`0 < r ≤ 1000` give `k + 1` chunks. -/
theorem chunksOf1000_length_replicate (k r : Nat) (h0 : 0 < r) (hr : r ≤ 1000) (a : Char) :
    (chunksOf1000 (List.replicate (1000 * k + r) a)).length = k + 1 := by
  induction k with
  | zero =>
    rw [Nat.mul_zero, Nat.zero_add,
      chunksOf1000_short _ (by rw [Ne, List.replicate_eq_nil_iff]; omega)
        (by rw [List.length_replicate]; exact hr)]
    rfl
  | succ k ih =>
    have hidx : 1000 * (k + 1) + r = 1000 + (1000 * k + r) := by ring
    rw [hidx, List.replicate_add,
      chunksOf1000_step _ (by
        intro h
        have hl := congrArg List.length h
        rw [List.length_append, List.length_replicate, List.length_replicate] at hl
        simp only [List.length_nil] at hl
        omega),
      List.take_left' (by rw [List.length_replicate]),
      List.drop_left' (by rw [List.length_replicate]),
      List.length_cons, ih]

/-- The 1200-character text of 1000 copies of a followed by 200 copies of b is
cut into exactly those two disjoint pieces. -/
theorem chunksOf1000_split_1200 (a b : Char) :
    chunksOf1000 (List.replicate 1000 a ++ List.replicate 200 b)
      = [List.replicate 1000 a, List.replicate 200 b] := by
  rw [chunksOf1000_step _ (by
      intro h
      have hl := congrArg List.length h
      rw [List.length_append, List.length_replicate, List.length_replicate] at hl
      simp only [List.length_nil] at hl
      omega),
    List.take_left' (by rw [List.length_replicate]),
    List.drop_left' (by rw [List.length_replicate]),
    chunksOf1000_short _ (by rw [Ne, List.replicate_eq_nil_iff]; omega)
      (by rw [List.length_replicate]; omega)]

/-- When the collection is configured and every chunk embeds and writes
successfully, the loop appends one record per chunk and ends without error. -/
theorem indexChunks_all_success (env : IndexEnv) (fileId : List Char)
    (chunks : List (List Char)) (store : Store) (n : Nat)
    (hvc : env.vectorCollection ≠ none)
    (hemb : ∀ ch ∈ chunks, ∃ v, env.embedChunk ch = .ok v)
    (hw : ∀ ch ∈ chunks, env.writeOk ch = true) :
    (indexChunks env fileId chunks store n).1.length = store.length + chunks.length ∧
    (indexChunks env fileId chunks store n).2.1 = n + chunks.length ∧
    (indexChunks env fileId chunks store n).2.2 = .ok () := by
  induction chunks generalizing store n with
  | nil => simp [indexChunks]
  | cons chunk rest ih =>
    obtain ⟨v, hv⟩ := hemb chunk (List.mem_cons_self chunk rest)
    have hwc := hw chunk (List.mem_cons_self chunk rest)
    obtain ⟨coll, hcoll⟩ : ∃ c, env.vectorCollection = some c := by
      cases hc : env.vectorCollection with
      | none => exact absurd hc hvc
      | some c => exact ⟨c, rfl⟩
    simp only [indexChunks, hv, hcoll, hwc, if_true]
    obtain ⟨h1, h2, h3⟩ := ih (store ++ [⟨fileId, chunk, v⟩]) (n + 1)
      (fun ch hm => hemb ch (List.mem_cons_of_mem _ hm))
      (fun ch hm => hw ch (List.mem_cons_of_mem _ hm))
    refine ⟨?_, ?_, h3⟩
    · rw [h1]
      simp only [List.length_append, List.length_cons, List.length_nil]
      omega
    · rw [h2, List.length_cons]
      omega

/-- When the collection is configured, the chunks before the first failing one
embed and write successfully, and that chunk either fails to embed or fails to
write, the loop stops there: the earlier chunks' records are in the store, the
failing chunk was embedded (or attempted), and the remaining chunks are never
processed. -/
theorem indexChunks_abort (env : IndexEnv) (fileId : List Char)
    (pre : List (List Char)) (bad : List Char) (rest : List (List Char))
    (store : Store) (n : Nat)
    (hvc : env.vectorCollection ≠ none)
    (hpreEmb : ∀ ch ∈ pre, ∃ v, env.embedChunk ch = .ok v)
    (hpreW : ∀ ch ∈ pre, env.writeOk ch = true)
    (hbad : (∃ e, env.embedChunk bad = .error e) ∨
      ((∃ v, env.embedChunk bad = .ok v) ∧ env.writeOk bad = false)) :
    (indexChunks env fileId (pre ++ bad :: rest) store n).1.length = store.length + pre.length ∧
    (indexChunks env fileId (pre ++ bad :: rest) store n).2.1 = n + pre.length + 1 ∧
    ∃ e, (indexChunks env fileId (pre ++ bad :: rest) store n).2.2 = .error e := by
  induction pre generalizing store n with
  | nil =>
    rcases hbad with ⟨e, he⟩ | ⟨⟨v, hv⟩, hwf⟩
    · simp only [List.nil_append, indexChunks, he]
      exact ⟨by simp, by simp, e, rfl⟩
    · obtain ⟨coll, hcoll⟩ : ∃ c, env.vectorCollection = some c := by
        cases hc : env.vectorCollection with
        | none => exact absurd hc hvc
        | some c => exact ⟨c, rfl⟩
      simp only [List.nil_append, indexChunks, hv, hcoll]
      rw [if_neg (by simp [hwf])]
      exact ⟨by simp, by simp, .writeErr, rfl⟩
  | cons chunk pre ih =>
    obtain ⟨v, hv⟩ := hpreEmb chunk (List.mem_cons_self chunk pre)
    have hwc := hpreW chunk (List.mem_cons_self chunk pre)
    obtain ⟨coll, hcoll⟩ : ∃ c, env.vectorCollection = some c := by
      cases hc : env.vectorCollection with
      | none => exact absurd hc hvc
      | some c => exact ⟨c, rfl⟩
    simp only [List.cons_append, indexChunks, hv, hcoll, hwc, if_true, List.append_eq]
    obtain ⟨h1, h2, h3⟩ := ih (store ++ [⟨fileId, chunk, v⟩]) (n + 1)
      (fun ch hm => hpreEmb ch (List.mem_cons_of_mem _ hm))
      (fun ch hm => hpreW ch (List.mem_cons_of_mem _ hm))
    refine ⟨?_, ?_, h3⟩
    · rw [h1]
      simp only [List.length_append, List.length_cons, List.length_nil]
      omega
    · rw [h2, List.length_cons]
      omega

/-- `indexDocument` forwards the store and the embedding count of its body and
swallows the body's error. -/
theorem indexDocument_eq_body (env : IndexEnv) (fileId bucketFileId mimeType : List Char)
    (store : Store) :
    (indexDocument env fileId bucketFileId mimeType store).store
        = (indexDocumentBody env fileId bucketFileId mimeType store).1 ∧
    (indexDocument env fileId bucketFileId mimeType store).embedCalls
        = (indexDocumentBody env fileId bucketFileId mimeType store).2.1 ∧
    (indexDocument env fileId bucketFileId mimeType store).raised = none := by
  unfold indexDocument
  rcases h : indexDocumentBody env fileId bucketFileId mimeType store with ⟨s, n, r⟩
  cases r with
  | ok u => cases u; exact ⟨rfl, rfl, rfl⟩
  | error e => exact ⟨rfl, rfl, rfl⟩

/-! ## Concrete fixtures used in the closed theorems -/

/-- A configured search environment whose external calls all succeed. -/
def searchEnvOk : SearchEnv := ⟨some "file_embeddings".toList, .ok [1], false⟩

/-- A search environment with the vector-collection variable unset. -/
def searchEnvUnset : SearchEnv := ⟨none, .ok [1], false⟩

/-- A configured search environment whose query embedding rejects. -/
def searchEnvEmbedFail : SearchEnv := ⟨some "file_embeddings".toList, .error .embedErr, false⟩

/-- A configured search environment whose `listDocuments` call rejects. -/
def searchEnvQueryFail : SearchEnv := ⟨some "file_embeddings".toList, .ok [1], true⟩

/-- A multi-tenant store: one chunk owned by fileA, one owned by fileB, both
containing the word alpha. -/
def storeMT : Store :=
  [⟨"fileA".toList, "alpha report".toList, [1]⟩,
   ⟨"fileB".toList, "alpha secret".toList, [2]⟩]

/-- A store with six chunk records all containing the word alpha. -/
def storeSix : Store :=
  [⟨"f1".toList, "alpha one".toList, [1]⟩,
   ⟨"f2".toList, "alpha two".toList, [2]⟩,
   ⟨"f3".toList, "alpha three".toList, [3]⟩,
   ⟨"f4".toList, "alpha four".toList, [4]⟩,
   ⟨"f5".toList, "alpha five".toList, [5]⟩,
   ⟨"f6".toList, "alpha six".toList, [6]⟩]

/-! ## Claims about the search tool -/

/-- C1: the claim states that `searchFileContentTool` returns only content
from chunk records whose `ownerFileId` lies in the querying user's accessible
file-id set.  The code violates this: the tool takes no file-id set and its
only filter is `Query.contains("content", query)`, so on a multi-tenant store
holding a matching chunk of user A (fileA) and one of user B (fileB), a query
whose accessible set is just fileA returns fileB's content as well. -/
theorem searchFileContentTool_cross_tenant_leak :
    (⟨"fileB".toList, "alpha secret".toList, [2]⟩ : ChunkRecord) ∈ storeMT ∧
    "fileB".toList ∉ ["fileA".toList] ∧
    "alpha secret".toList <:+: (searchFileContent searchEnvOk storeMT "alpha".toList).result := by
  decide

/-- C2 counterexample: the search has no `topK` parameter and computes no
scores — on a store with six matching chunk records it returns six entries,
exceeding the specified default `topK` of five (and a fortiori any smaller
`topK`). -/
theorem searchFileContentTool_exceeds_topK :
    (searchReturnedContents searchEnvOk storeSix "alpha".toList).length = 6 ∧ 5 < 6 := by
  decide

/-- C2 (amended): for every query, the search returns the contents of all
stored chunk records whose content contains the query as a substring, in
store order and joined into one string — with no `topK` truncation and no
similarity scores. -/
theorem searchFileContentTool_returns_all_matches (env : SearchEnv) (store : Store)
    (query : List Char)
    (hconf : env.vectorCollection ≠ none)
    (hemb : ∃ v, env.embedQueryResult = .ok v)
    (hq : env.listDocsFails = false) :
    searchReturnedContents env store query = (matchingDocs store query).map ChunkRecord.content ∧
    (searchReturnedContents env store query).length = (matchingDocs store query).length ∧
    (chunkSep.intercalate ((matchingDocs store query).map ChunkRecord.content) ≠ [] →
      (searchFileContent env store query).result
        = chunkSep.intercalate ((matchingDocs store query).map ChunkRecord.content)) := by
  obtain ⟨v, hv⟩ := hemb
  have hn : env.vectorCollection.isNone = false := by
    cases hc : env.vectorCollection with
    | none => exact absurd hc hconf
    | some c => rfl
  refine ⟨?_, ?_, ?_⟩
  · simp [searchReturnedContents, hn, hv, hq]
  · simp [searchReturnedContents, hn, hv, hq]
  · intro hne
    simp [searchFileContent, hn, hv, hq, hne]

theorem searchFileContentTool_returns_all_matches_witness :
    searchReturnedContents searchEnvOk storeMT "alpha".toList
      = (matchingDocs storeMT "alpha".toList).map ChunkRecord.content :=
  (searchFileContentTool_returns_all_matches searchEnvOk storeMT "alpha".toList
    (by decide) ⟨[1], rfl⟩ rfl).1

/-- C8: when the retrieval yields zero matching chunks, the search returns the
distinguished non-empty message "No relevant content found in documents."
rather than an empty result. -/
theorem searchFileContentTool_no_chunks_message (env : SearchEnv) (store : Store)
    (query : List Char)
    (hconf : env.vectorCollection ≠ none)
    (hemb : ∃ v, env.embedQueryResult = .ok v)
    (hq : env.listDocsFails = false)
    (hmatch : matchingDocs store query = []) :
    (searchFileContent env store query).result = noRelevantMsg ∧ noRelevantMsg ≠ [] := by
  obtain ⟨v, hv⟩ := hemb
  have hn : env.vectorCollection.isNone = false := by
    cases hc : env.vectorCollection with
    | none => exact absurd hc hconf
    | some c => rfl
  constructor
  · simp [searchFileContent, hn, hv, hq, hmatch, List.intercalate]
  · decide

theorem searchFileContentTool_no_chunks_message_witness :
    (searchFileContent searchEnvOk storeMT "zebra".toList).result = noRelevantMsg ∧
    noRelevantMsg ≠ [] :=
  searchFileContentTool_no_chunks_message searchEnvOk storeMT "zebra".toList
    (by decide) ⟨[1], rfl⟩ rfl (by decide)

/-- C9: the search tool is total over its error cases — unset collection
variable gives the fixed string "Vector search not configured." with no store
query issued; a failing embedding or a failing store query gives the fixed
string "Failed to search document content.".  (The embedding returns a
`SearchOutcome` in every case, the image of the catch-all error handler.) -/
theorem searchFileContentTool_total (env : SearchEnv) (store : Store) (query : List Char) :
    (env.vectorCollection = none →
      searchFileContent env store query = ⟨notConfiguredMsg, 0⟩) ∧
    (env.vectorCollection ≠ none → (∃ e, env.embedQueryResult = .error e) →
      searchFileContent env store query = ⟨searchFailedMsg, 0⟩) ∧
    (env.vectorCollection ≠ none → (∃ v, env.embedQueryResult = .ok v) →
      env.listDocsFails = true →
      searchFileContent env store query = ⟨searchFailedMsg, 1⟩) := by
  refine ⟨fun hc => ?_, fun hc he => ?_, fun hc hv hl => ?_⟩
  · simp [searchFileContent, hc]
  · obtain ⟨e, he⟩ := he
    have hn : env.vectorCollection.isNone = false := by
      cases hcase : env.vectorCollection with
      | none => exact absurd hcase hc
      | some c => rfl
    simp [searchFileContent, hn, he]
  · obtain ⟨v, hv⟩ := hv
    have hn : env.vectorCollection.isNone = false := by
      cases hcase : env.vectorCollection with
      | none => exact absurd hcase hc
      | some c => rfl
    simp [searchFileContent, hn, hv, hl]

theorem searchFileContentTool_total_witness :
    searchFileContent searchEnvUnset storeMT "alpha".toList = ⟨notConfiguredMsg, 0⟩ ∧
    searchFileContent searchEnvEmbedFail storeMT "alpha".toList = ⟨searchFailedMsg, 0⟩ ∧
    searchFileContent searchEnvQueryFail storeMT "alpha".toList = ⟨searchFailedMsg, 1⟩ :=
  ⟨(searchFileContentTool_total searchEnvUnset storeMT "alpha".toList).1 rfl,
   (searchFileContentTool_total searchEnvEmbedFail storeMT "alpha".toList).2.1
     (by decide) ⟨.embedErr, rfl⟩,
   (searchFileContentTool_total searchEnvQueryFail storeMT "alpha".toList).2.2
     (by decide) ⟨[1], rfl⟩ rfl⟩

/-! ## Fixtures for the indexing claims -/

/-- A configured indexing environment whose external calls all succeed; the
extracted text is the 11-character "hello world" (one chunk). -/
def envAllOk : IndexEnv :=
  ⟨some "file_embeddings".toList,
   fun _ => .ok [104, 105],
   fun _ => .ok "pdf text".toList,
   fun _ => "hello world".toList,
   fun _ => .ok [1],
   fun _ => true⟩

/-- A configured all-success indexing environment whose extracted text has
10001 characters, hence 11 chunks. -/
def envBigText : IndexEnv :=
  ⟨some "file_embeddings".toList,
   fun _ => .ok [7],
   fun _ => .ok "p".toList,
   fun _ => List.replicate 10001 'a',
   fun _ => .ok [1],
   fun _ => true⟩

/-- A configured indexing environment whose extracted text has two chunks and
whose embedding call fails exactly on the first chunk (the 1000 copies of a)
while succeeding on every other chunk. -/
def envFailFirst : IndexEnv :=
  ⟨some "file_embeddings".toList,
   fun _ => .ok [7],
   fun _ => .ok "p".toList,
   fun _ => List.replicate 1000 'a' ++ List.replicate 200 'b',
   fun chunk => if chunk = List.replicate 1000 'a' then .error .embedErr else .ok [5],
   fun _ => true⟩

set_option maxRecDepth 8000 in
theorem envFailFirst_embed_first :
    envFailFirst.embedChunk (List.replicate 1000 'a') = .error .embedErr := by
  rw [show envFailFirst.embedChunk (List.replicate 1000 'a')
      = if List.replicate 1000 'a' = List.replicate 1000 'a'
        then Except.error RagError.embedErr else Except.ok [5] from rfl,
    if_pos rfl]

set_option maxRecDepth 8000 in
theorem envFailFirst_embed_second :
    envFailFirst.embedChunk (List.replicate 200 'b') = .ok [5] := by
  have hne : List.replicate 200 'b' ≠ List.replicate 1000 'a' := by
    intro h
    have hl := congrArg List.length h
    rw [List.length_replicate, List.length_replicate] at hl
    omega
  rw [show envFailFirst.embedChunk (List.replicate 200 'b')
      = if List.replicate 200 'b' = List.replicate 1000 'a'
        then Except.error RagError.embedErr else Except.ok [5] from rfl,
    if_neg hne]

/-- A configured indexing environment whose extracted text has two chunks,
whose embeddings all succeed, and whose `createDocument` call fails exactly on
the first chunk (the 1000 copies of a) while succeeding on every other
chunk. -/
def envWriteFail : IndexEnv :=
  ⟨some "file_embeddings".toList,
   fun _ => .ok [7],
   fun _ => .ok "p".toList,
   fun _ => List.replicate 1000 'a' ++ List.replicate 200 'b',
   fun _ => .ok [5],
   fun chunk => if chunk = List.replicate 1000 'a' then false else true⟩

set_option maxRecDepth 8000 in
theorem envWriteFail_write_first :
    envWriteFail.writeOk (List.replicate 1000 'a') = false := by
  rw [show envWriteFail.writeOk (List.replicate 1000 'a')
      = if List.replicate 1000 'a' = List.replicate 1000 'a' then false else true from rfl,
    if_pos rfl]

/-- An indexing environment with the vector-collection variable unset and all
external calls succeeding; the extracted text is "hello". -/
def envUnset : IndexEnv :=
  ⟨none,
   fun _ => .ok [7],
   fun _ => .ok "p".toList,
   fun _ => "hello".toList,
   fun _ => .ok [1],
   fun _ => true⟩

/-! ## Claims about indexing -/

/-- C7: text extraction dispatches on the declared media type — pdf parsing
for application/pdf, direct utf-8 decoding (always successful) for media types
beginning in text/, and an explicit unsupported-type error, never a silent
success, for every other media type. -/
theorem extractTextFromFile_dispatch (env : IndexEnv) (fileBuffer : List Nat)
    (mimeType : List Char) :
    (mimeType = "application/pdf".toList →
      extractTextFromFile env fileBuffer mimeType = env.pdfParse fileBuffer) ∧
    (mimeType ≠ "application/pdf".toList → "text/".toList <+: mimeType →
      extractTextFromFile env fileBuffer mimeType = .ok (env.utf8Decode fileBuffer)) ∧
    (mimeType ≠ "application/pdf".toList → ¬("text/".toList <+: mimeType) →
      extractTextFromFile env fileBuffer mimeType = .error (.unsupported mimeType)) := by
  refine ⟨fun h => ?_, fun h1 h2 => ?_, fun h1 h2 => ?_⟩
  · unfold extractTextFromFile
    rw [if_pos h]
  · unfold extractTextFromFile
    rw [if_neg h1, if_pos h2]
  · unfold extractTextFromFile
    rw [if_neg h1, if_neg h2]

theorem extractTextFromFile_dispatch_witness :
    extractTextFromFile envAllOk [104, 105] "application/pdf".toList
      = envAllOk.pdfParse [104, 105] ∧
    extractTextFromFile envAllOk [104, 105] "text/plain".toList
      = .ok (envAllOk.utf8Decode [104, 105]) ∧
    extractTextFromFile envAllOk [104, 105] "image/png".toList
      = .error (.unsupported "image/png".toList) :=
  ⟨(extractTextFromFile_dispatch envAllOk [104, 105] "application/pdf".toList).1 rfl,
   (extractTextFromFile_dispatch envAllOk [104, 105] "text/plain".toList).2.1
     (by decide) (by decide),
   (extractTextFromFile_dispatch envAllOk [104, 105] "image/png".toList).2.2
     (by decide) (by decide)⟩

/-- C5: `indexDocument` never raises to its caller — every failure of
download, extraction, embedding or storage happens inside the body, whose
error the surrounding try/catch swallows. -/
theorem indexDocument_never_raises (env : IndexEnv) (fileId bucketFileId mimeType : List Char)
    (store : Store) :
    (indexDocument env fileId bucketFileId mimeType store).raised = none :=
  (indexDocument_eq_body env fileId bucketFileId mimeType store).2.2

/-- C3 counterexample: a text of 10001 characters yields 11 chunks and
`indexDocument` writes all 11 of them — more than the configured maximum of 10
chunks per file documented by the repository — and its outcome carries no
`chunkCount` or `truncated` report of this. -/
theorem indexDocument_writes_all_chunks_uncapped :
    (indexDocument envBigText "f1".toList "b1".toList "text/plain".toList []).store.length = 11 ∧
    10 < 11 ∧
    (indexDocument envBigText "f1".toList "b1".toList "text/plain".toList []).raised = none := by
  obtain ⟨hs, hn, hr⟩ := indexDocument_eq_body envBigText "f1".toList "b1".toList
    "text/plain".toList []
  have hbody : indexDocumentBody envBigText "f1".toList "b1".toList "text/plain".toList []
      = indexChunks envBigText "f1".toList (chunksOf1000 (List.replicate 10001 'a')) [] 0 :=
    rfl
  obtain ⟨h1, _, _⟩ := indexChunks_all_success envBigText "f1".toList
    (chunksOf1000 (List.replicate 10001 'a')) [] 0 (by decide)
    (fun ch _ => ⟨[1], rfl⟩) (fun ch _ => rfl)
  have hlen : (chunksOf1000 (List.replicate 10001 'a')).length = 11 := by
    rw [show (10001 : Nat) = 1000 * 10 + 1 by norm_num]
    exact chunksOf1000_length_replicate 10 1 (by omega) (by omega) 'a'
  refine ⟨?_, by omega, hr⟩
  rw [hs, hbody, h1, hlen]
  rfl

/-- C3 (amended): `indexDocument` indexes every chunk the text produces, with
no configured maximum — when all external calls succeed it writes exactly one
record per chunk — and it returns no result record at all: no `chunkCount`, no
`truncated` flag, and no error. -/
theorem indexDocument_no_chunk_cap (env : IndexEnv) (fileId bucketFileId mimeType : List Char)
    (store : Store) (buf : List Nat) (text : List Char)
    (hvc : env.vectorCollection ≠ none)
    (hdl : env.downloadResult bucketFileId = .ok buf)
    (hex : extractTextFromFile env buf mimeType = .ok text)
    (hemb : ∀ ch, ∃ v, env.embedChunk ch = .ok v)
    (hw : ∀ ch, env.writeOk ch = true) :
    (indexDocument env fileId bucketFileId mimeType store).store.length
      = store.length + (chunksOf1000 text).length ∧
    (indexDocument env fileId bucketFileId mimeType store).embedCalls
      = (chunksOf1000 text).length ∧
    (indexDocument env fileId bucketFileId mimeType store).raised = none := by
  obtain ⟨hs, hn, hr⟩ := indexDocument_eq_body env fileId bucketFileId mimeType store
  have hbody : indexDocumentBody env fileId bucketFileId mimeType store
      = indexChunks env fileId (chunksOf1000 text) store 0 := by
    simp only [indexDocumentBody, hdl, hex]
  obtain ⟨h1, h2, _⟩ := indexChunks_all_success env fileId (chunksOf1000 text) store 0 hvc
    (fun ch _ => hemb ch) (fun ch _ => hw ch)
  refine ⟨by rw [hs, hbody, h1], ?_, hr⟩
  rw [hn, hbody, h2, Nat.zero_add]

theorem indexDocument_no_chunk_cap_witness :
    (indexDocument envAllOk "f1".toList "b1".toList "text/plain".toList []).store.length
      = ([] : Store).length + (chunksOf1000 "hello world".toList).length ∧
    (indexDocument envAllOk "f1".toList "b1".toList "text/plain".toList []).embedCalls
      = (chunksOf1000 "hello world".toList).length ∧
    (indexDocument envAllOk "f1".toList "b1".toList "text/plain".toList []).raised = none :=
  indexDocument_no_chunk_cap envAllOk "f1".toList "b1".toList "text/plain".toList []
    [104, 105] "hello world".toList (by decide) rfl rfl
    (fun ch => ⟨[1], rfl⟩) (fun ch => rfl)

/-- C4 counterexample: with a text of two chunks whose first chunk's embedding
fails while the second chunk would embed and write successfully,
`indexDocument` writes nothing at all — the remaining chunk is not processed,
the loop having been aborted by the first failure — and the outcome reports
nothing about written versus attempted chunks. -/
theorem indexDocument_aborts_on_single_chunk_failure :
    envFailFirst.embedChunk (List.replicate 200 'b') = .ok [5] ∧
    envFailFirst.writeOk (List.replicate 200 'b') = true ∧
    indexDocument envFailFirst "f1".toList "b1".toList "text/plain".toList []
      = ⟨[], 1, none⟩ := by
  refine ⟨envFailFirst_embed_second, rfl, ?_⟩
  have hbody : indexDocumentBody envFailFirst "f1".toList "b1".toList "text/plain".toList []
      = indexChunks envFailFirst "f1".toList
          (chunksOf1000 (List.replicate 1000 'a' ++ List.replicate 200 'b')) [] 0 :=
    rfl
  unfold indexDocument
  rw [hbody, chunksOf1000_split_1200]
  simp only [indexChunks]
  rw [envFailFirst_embed_first]

/-- C4 (amended): a failure embedding one chunk, or a failure persisting one
chunk to the store, aborts the processing of all remaining chunks — the
records of the chunks before the failing one are kept, the failing chunk is
the last one attempted, and the caller sees neither an error nor any report of
how many chunks were written versus attempted. -/
theorem indexDocument_stops_at_failing_chunk (env : IndexEnv)
    (fileId bucketFileId mimeType : List Char) (store : Store)
    (buf : List Nat) (text : List Char)
    (pre : List (List Char)) (bad : List Char) (rest : List (List Char))
    (hvc : env.vectorCollection ≠ none)
    (hdl : env.downloadResult bucketFileId = .ok buf)
    (hex : extractTextFromFile env buf mimeType = .ok text)
    (hchunks : chunksOf1000 text = pre ++ bad :: rest)
    (hpreEmb : ∀ ch ∈ pre, ∃ v, env.embedChunk ch = .ok v)
    (hpreW : ∀ ch ∈ pre, env.writeOk ch = true)
    (hbad : (∃ e, env.embedChunk bad = .error e) ∨
      ((∃ v, env.embedChunk bad = .ok v) ∧ env.writeOk bad = false)) :
    (indexDocument env fileId bucketFileId mimeType store).store.length
      = store.length + pre.length ∧
    (indexDocument env fileId bucketFileId mimeType store).embedCalls = pre.length + 1 ∧
    (indexDocument env fileId bucketFileId mimeType store).raised = none := by
  obtain ⟨hs, hn, hr⟩ := indexDocument_eq_body env fileId bucketFileId mimeType store
  have hbody : indexDocumentBody env fileId bucketFileId mimeType store
      = indexChunks env fileId (pre ++ bad :: rest) store 0 := by
    simp only [indexDocumentBody, hdl, hex, hchunks]
  obtain ⟨h1, h2, _⟩ := indexChunks_abort env fileId pre bad rest store 0 hvc hpreEmb hpreW hbad
  refine ⟨by rw [hs, hbody, h1], ?_, hr⟩
  rw [hn, hbody, h2]
  omega

theorem indexDocument_stops_at_failing_chunk_witness :
    ((indexDocument envFailFirst "f1".toList "b1".toList "text/plain".toList []).store.length
       = ([] : Store).length + ([] : List (List Char)).length ∧
     (indexDocument envFailFirst "f1".toList "b1".toList "text/plain".toList []).embedCalls
       = ([] : List (List Char)).length + 1 ∧
     (indexDocument envFailFirst "f1".toList "b1".toList "text/plain".toList []).raised
       = none) ∧
    ((indexDocument envWriteFail "f1".toList "b1".toList "text/plain".toList []).store.length
       = ([] : Store).length + ([] : List (List Char)).length ∧
     (indexDocument envWriteFail "f1".toList "b1".toList "text/plain".toList []).embedCalls
       = ([] : List (List Char)).length + 1 ∧
     (indexDocument envWriteFail "f1".toList "b1".toList "text/plain".toList []).raised
       = none) :=
  ⟨indexDocument_stops_at_failing_chunk envFailFirst "f1".toList "b1".toList "text/plain".toList
    [] [7] (List.replicate 1000 'a' ++ List.replicate 200 'b')
    [] (List.replicate 1000 'a') [List.replicate 200 'b']
    (by decide) rfl rfl (chunksOf1000_split_1200 'a' 'b')
    (fun ch hm => absurd hm (List.not_mem_nil ch))
    (fun ch hm => absurd hm (List.not_mem_nil ch))
    (Or.inl ⟨.embedErr, envFailFirst_embed_first⟩),
   indexDocument_stops_at_failing_chunk envWriteFail "f1".toList "b1".toList "text/plain".toList
    [] [7] (List.replicate 1000 'a' ++ List.replicate 200 'b')
    [] (List.replicate 1000 'a') [List.replicate 200 'b']
    (by decide) rfl rfl (chunksOf1000_split_1200 'a' 'b')
    (fun ch hm => absurd hm (List.not_mem_nil ch))
    (fun ch hm => absurd hm (List.not_mem_nil ch))
    (Or.inr ⟨⟨[5], rfl⟩, envWriteFail_write_first⟩)⟩

set_option maxRecDepth 4000 in
/-- C6 counterexample: with the recommended defaults chunkSize = 1000 and
overlap = 200 (which satisfy 0 < overlap < chunkSize), the chunker cuts a
1200-character text into two chunks that share no characters at all: the last
200 characters of the first chunk differ from the first 200 characters of the
second, so adjacent chunks do not overlap by 200 characters. -/
theorem chunker_adjacent_chunks_share_nothing :
    ((0 : Nat) < 200 ∧ (200 : Nat) < 1000) ∧
    chunksOf1000 (List.replicate 1000 'a' ++ List.replicate 200 'b')
      = [List.replicate 1000 'a', List.replicate 200 'b'] ∧
    (List.replicate 1000 'a').drop (1000 - 200) ≠ (List.replicate 200 'b').take 200 := by
  refine ⟨by omega, chunksOf1000_split_1200 'a' 'b', by decide⟩

/-- C6 (amended): the chunker splits the text into consecutive disjoint
segments — re-concatenating the chunks restores the text exactly, so adjacent
chunks share zero characters — each chunk non-empty and at most 1000
characters long, with no configurable chunk size or overlap. -/
theorem chunker_disjoint_partition (s : List Char) :
    (chunksOf1000 s).flatten = s ∧
    ∀ c ∈ chunksOf1000 s, c ≠ [] ∧ c.length ≤ 1000 :=
  ⟨chunksOf1000_join s, fun c hc => chunksOf1000_length_le s c hc⟩

theorem chunker_disjoint_partition_witness :
    (chunksOf1000 "ab".toList).flatten = "ab".toList ∧
    ("ab".toList ≠ [] ∧ ("ab".toList).length ≤ 1000) :=
  ⟨(chunker_disjoint_partition "ab".toList).1,
   (chunker_disjoint_partition "ab".toList).2 "ab".toList (by decide)⟩

/-- C10: when the vector-collection variable is unset and the text is
non-empty, `indexDocument` embeds exactly the first chunk, returns from inside
the loop before any `createDocument` call, leaves the store exactly as it was,
and reports no error. -/
theorem indexDocument_unconfigured_skips_store (env : IndexEnv)
    (fileId bucketFileId mimeType : List Char) (store : Store)
    (buf : List Nat) (text : List Char)
    (hvc : env.vectorCollection = none)
    (hdl : env.downloadResult bucketFileId = .ok buf)
    (hex : extractTextFromFile env buf mimeType = .ok text)
    (hne : text ≠ []) :
    indexDocument env fileId bucketFileId mimeType store = ⟨store, 1, none⟩ := by
  have hbody : indexDocumentBody env fileId bucketFileId mimeType store
      = indexChunks env fileId (chunksOf1000 text) store 0 := by
    simp only [indexDocumentBody, hdl, hex]
  unfold indexDocument
  rw [hbody, chunksOf1000_step text hne]
  simp only [indexChunks]
  cases hemb : env.embedChunk (text.take 1000) with
  | error e => rfl
  | ok v =>
    rw [hvc]

theorem indexDocument_unconfigured_skips_store_witness :
    indexDocument envUnset "f1".toList "b1".toList "text/plain".toList [] = ⟨[], 1, none⟩ :=
  indexDocument_unconfigured_skips_store envUnset "f1".toList "b1".toList "text/plain".toList
    [] [7] "hello".toList rfl rfl rfl (by decide)

end Rag
